import Mathlib

/-!
Verification of the Hangman engine (`hangman.py`).

Python strings are modelled as `List Char`, Python `int` as `Int`,
Python `set` as a `List Char` queried only through membership, and a
function that can raise as `Except PyError`.  The pseudo-random draw of
`random.Random.choice` is modelled by an extra `pick : Nat` parameter:
the chosen element is the one at index `pick % pool.length`, which is a
member of the pool whenever the pool is non-empty.
-/

namespace Hangman

/-- Embeds the module constant `MASK_CHAR = "_"`. -/
def MASK_CHAR : Char := '_'

/-- `c in string.ascii_uppercase` for a single character: membership in A-Z. -/
def isUpperAlpha (c : Char) : Bool := 'A' ≤ c && c ≤ 'Z'

/-- Python `str.strip()`: drop leading and trailing whitespace. -/
def trimWs (l : List Char) : List Char :=
  ((l.dropWhile Char.isWhitespace).reverse.dropWhile Char.isWhitespace).reverse

/-- Embeds `_normalize_answer`: uppercase, keep only A-Z and space, strip ends. -/
def normalize_answer (text_input : List Char) : List Char :=
  trimWs ((text_input.map Char.toUpper).filter (fun ch => isUpperAlpha ch || ch == ' '))

/-- Embeds the dataclass `HangmanState`. -/
structure HangmanState where
  answer : List Char
  lives : Int
  guessed : List Char
deriving DecidableEq

/-- Embeds the derived property `HangmanState.masked`:
`" ".join(ch if (ch == " " or ch in self.guessed) else MASK_CHAR for ch in self.answer)`. -/
def HangmanState.masked (s : HangmanState) : List Char :=
  List.intersperse ' '
    (s.answer.map (fun ch => if ch == ' ' || s.guessed.contains ch then ch else MASK_CHAR))

/-- Embeds `HangmanState.is_won`:
`all(ch == " " or ch in self.guessed for ch in self.answer)`. -/
def HangmanState.is_won (s : HangmanState) : Bool :=
  s.answer.all (fun ch => ch == ' ' || s.guessed.contains ch)

/-- Embeds `HangmanState.is_lost`: `self.lives <= 0 and not self.is_won`. -/
def HangmanState.is_lost (s : HangmanState) : Bool :=
  decide (s.lives ≤ 0) && ! s.is_won

/-- The two exception classes the engine raises.  The spec names them by role:
`ConfigurationError` and `InvalidArgument` are the engine's `ValueError`s,
`PreconditionViolation` is its `RuntimeError`. -/
inductive PyError where
  | valueError (msg : String)
  | runtimeError (msg : String)
deriving DecidableEq

/-- Embeds the class `HangmanEngine`'s fields: the filtered word pool
`_lexicon`, the filtered phrase pool `_idioms`, `_life_pool`, `_game_state`. -/
structure HangmanEngine where
  lexicon : List (List Char)
  idioms : List (List Char)
  life_pool : Int
  game_state : Option HangmanState
deriving DecidableEq

/-- Embeds `HangmanEngine.__init__`: strip and drop blank entries from each
pool, fail on an empty filtered pool, otherwise store both pools, the life
count, and no active round. -/
def HangmanEngine.init (words phrases : List (List Char)) (lives : Int) :
    Except PyError HangmanEngine :=
  let lexicon := (words.filter (fun w => !w.isEmpty && !(trimWs w).isEmpty)).map trimWs
  let idioms := (phrases.filter (fun p => !p.isEmpty && !(trimWs p).isEmpty)).map trimWs
  if lexicon.isEmpty then .error (.valueError "words must not be empty")
  else if idioms.isEmpty then .error (.valueError "phrases must not be empty")
  else .ok { lexicon := lexicon, idioms := idioms, life_pool := lives, game_state := none }

/-- Embeds `HangmanEngine.start`.  The rng draw is the `pick` parameter;
`random.choice` picks a member of the selected pool. -/
def HangmanEngine.start (e : HangmanEngine) (difficulty : String) (pick : Nat) :
    Except PyError (HangmanState × HangmanEngine) :=
  if ¬ (difficulty = "basic" ∨ difficulty = "intermediate") then
    .error (.valueError "difficulty must be 'basic' or 'intermediate'")
  else
    let pool := if difficulty = "basic" then e.lexicon else e.idioms
    let chosen_raw := pool.getD (pick % pool.length) []
    let st : HangmanState :=
      { answer := normalize_answer chosen_raw, lives := e.life_pool, guessed := [] }
    .ok (st, { e with game_state := some st })

/-- Embeds the property `HangmanEngine.state`. -/
def HangmanEngine.state (e : HangmanEngine) : Except PyError HangmanState :=
  match e.game_state with
  | none => .error (.runtimeError "game not started")
  | some s => .ok s

/-- Embeds `HangmanEngine.guess`: normalize the letter (strip, upper); ignore
it unless it is a single A-Z character; no penalty for repeats; otherwise add
it to the guessed set and charge one life exactly when it is absent from the
answer. -/
def HangmanEngine.guess (e : HangmanEngine) (letter : List Char) :
    Except PyError (HangmanState × HangmanEngine) :=
  match e.game_state with
  | none => .error (.runtimeError "game not started")
  | some gs =>
    match (trimWs letter).map Char.toUpper with
    | [c] =>
      if ! isUpperAlpha c then .ok (gs, e)
      else if gs.guessed.contains c then .ok (gs, e)
      else
        let st : HangmanState :=
          { answer := gs.answer
            lives := gs.lives - (if gs.answer.contains c then 0 else 1)
            guessed := c :: gs.guessed }
        .ok (st, { e with game_state := some st })
    | _ => .ok (gs, e)

/-- Embeds `HangmanEngine.timeout`: unconditionally charge one life, keep
answer and guessed. -/
def HangmanEngine.timeout (e : HangmanEngine) :
    Except PyError (HangmanState × HangmanEngine) :=
  match e.game_state with
  | none => .error (.runtimeError "game not started")
  | some gs =>
    let st : HangmanState :=
      { answer := gs.answer, lives := gs.lives - 1, guessed := gs.guessed }
    .ok (st, { e with game_state := some st })

/-- A transition applied to the engine: one `guess` call or one `timeout` call. -/
inductive HAction where
  | aguess (letter : List Char)
  | atimeout

/-- The engine left behind by one call (a raised exception leaves it as it was). -/
def HangmanEngine.applyAction (e : HangmanEngine) : HAction → HangmanEngine
  | .aguess l =>
    match e.guess l with
    | .ok (_, e') => e'
    | .error _ => e
  | .atimeout =>
    match e.timeout with
    | .ok (_, e') => e'
    | .error _ => e

/-- The engine after a sequence of `guess`/`timeout` calls. -/
def HangmanEngine.run (e : HangmanEngine) : List HAction → HangmanEngine
  | [] => e
  | a :: rest => (e.applyAction a).run rest

end Hangman

deriving instance DecidableEq for Except

namespace Hangman

theorem contains_iff (l : List Char) (c : Char) : l.contains c = true ↔ c ∈ l := by
  simp [List.contains, List.elem_iff]

/-- Claim C2: `is_won` holds exactly when every non-space character of the
answer has been guessed; `is_lost` holds exactly when lives are at or below
zero and the round is not won; the two are mutually exclusive, so a fully
revealed answer is never reported lost even with non-positive lives. -/
theorem C2_win_loss_characterization (s : HangmanState) :
    (s.is_won = true ↔ ∀ ch ∈ s.answer, ch = ' ' ∨ ch ∈ s.guessed) ∧
    (s.is_lost = true ↔ (s.lives ≤ 0 ∧ s.is_won ≠ true)) ∧
    (¬ (s.is_won = true ∧ s.is_lost = true)) ∧
    (s.is_won = true → s.is_lost = false) := by
  refine ⟨?_, ?_, ?_, ?_⟩
  · simp [HangmanState.is_won, List.all_eq_true, contains_iff]
  · simp [HangmanState.is_lost]
  · rintro ⟨hw, hl⟩
    simp [HangmanState.is_lost, hw] at hl
  · intro hw
    simp [HangmanState.is_lost, hw]

/-- Claim C4: on an active round, `timeout` unconditionally decrements lives
by exactly one with no floor at zero, leaves answer and guessed unchanged,
and stores and returns the new state. -/
theorem C4_timeout_decrements (e : HangmanEngine) (gs : HangmanState)
    (hactive : e.game_state = some gs) :
    ∃ st : HangmanState,
      e.timeout = .ok (st, { e with game_state := some st }) ∧
      st.lives = gs.lives - 1 ∧
      st.answer = gs.answer ∧
      st.guessed = gs.guessed := by
  refine ⟨⟨gs.answer, gs.lives - 1, gs.guessed⟩, ?_, rfl, rfl, rfl⟩
  unfold HangmanEngine.timeout
  rw [hactive]

/-- Claim C4 witness: with an active round at zero lives, `timeout` still
decrements, reaching -1. -/
theorem C4_timeout_decrements_witness :
    ∃ st : HangmanState,
      (HangmanEngine.mk [['A','B']] [['X']] 3
          (some ⟨['A','B'], 0, ['A']⟩)).timeout =
        .ok (st, HangmanEngine.mk [['A','B']] [['X']] 3 (some st)) ∧
      st.lives = (0 : Int) - 1 ∧
      st.answer = ['A','B'] ∧
      st.guessed = ['A'] :=
  C4_timeout_decrements
    (HangmanEngine.mk [['A','B']] [['X']] 3 (some ⟨['A','B'], 0, ['A']⟩))
    ⟨['A','B'], 0, ['A']⟩ rfl

/-- Claim C8: before any round has started, `state`, `guess` and `timeout`
raise the precondition error (`RuntimeError("game not started")`, the spec's
`PreconditionViolation`) and leave the engine unchanged; `start` with an
unrecognized difficulty raises the invalid-argument error
(`ValueError`, the spec's `InvalidArgument`) on every engine. -/
theorem C8_preconditions (e : HangmanEngine) (letter : List Char)
    (d : String) (pick : Nat)
    (hno : e.game_state = none)
    (hd : d ≠ "basic" ∧ d ≠ "intermediate") :
    e.state = .error (.runtimeError "game not started") ∧
    e.guess letter = .error (.runtimeError "game not started") ∧
    e.timeout = .error (.runtimeError "game not started") ∧
    e.applyAction (.aguess letter) = e ∧
    e.applyAction .atimeout = e ∧
    (∀ e' : HangmanEngine,
      e'.start d pick = .error (.valueError "difficulty must be 'basic' or 'intermediate'")) := by
  have hg : e.guess letter = .error (.runtimeError "game not started") := by
    unfold HangmanEngine.guess; rw [hno]
  have ht : e.timeout = .error (.runtimeError "game not started") := by
    unfold HangmanEngine.timeout; rw [hno]
  refine ⟨?_, hg, ht, ?_, ?_, ?_⟩
  · unfold HangmanEngine.state; rw [hno]
  · simp [HangmanEngine.applyAction, hg]
  · simp [HangmanEngine.applyAction, ht]
  · intro e'
    unfold HangmanEngine.start
    simp [hd.1, hd.2]

/-- Claim C8 witness: a fresh engine with no active round rejects `state`,
`guess` and `timeout`, and `start "hard"` is rejected as an invalid argument. -/
theorem C8_preconditions_witness :
    (HangmanEngine.mk [['D','O','G']] [['B','I','G']] 3 none).state =
        .error (.runtimeError "game not started") ∧
    (HangmanEngine.mk [['D','O','G']] [['B','I','G']] 3 none).guess ['D'] =
        .error (.runtimeError "game not started") ∧
    (HangmanEngine.mk [['D','O','G']] [['B','I','G']] 3 none).timeout =
        .error (.runtimeError "game not started") ∧
    (HangmanEngine.mk [['D','O','G']] [['B','I','G']] 3 none).applyAction
        (.aguess ['D']) = HangmanEngine.mk [['D','O','G']] [['B','I','G']] 3 none ∧
    (HangmanEngine.mk [['D','O','G']] [['B','I','G']] 3 none).applyAction
        .atimeout = HangmanEngine.mk [['D','O','G']] [['B','I','G']] 3 none ∧
    (∀ e' : HangmanEngine,
      e'.start "hard" 0 =
        .error (.valueError "difficulty must be 'basic' or 'intermediate'")) :=
  C8_preconditions (HangmanEngine.mk [['D','O','G']] [['B','I','G']] 3 none)
    ['D'] "hard" 0 rfl (by refine ⟨?_, ?_⟩ <;> decide)

/-- Claim C9 counterexample: the supplied word pool `[" "]` and phrase pool
`["B C"]` are both non-empty, yet construction fails, because `__init__`
drops entries that are blank after stripping before checking emptiness. -/
theorem C9_nonempty_pool_construction_fails :
    ([[' ']] : List (List Char)) ≠ [] ∧
    ([['B',' ','C']] : List (List Char)) ≠ [] ∧
    HangmanEngine.init [[' ']] [['B',' ','C']] 6 =
      .error (.valueError "words must not be empty") := by
  refine ⟨by decide, by decide, by decide⟩

/-- Claim C9 (amended): construction fails with "words must not be empty"
when every supplied word is blank after stripping (in particular when the
word pool is empty), fails with "phrases must not be empty" when some word
survives but every supplied phrase is blank after stripping, and succeeds
when both pools contain an entry that is non-blank after stripping, storing
the stripped pools, the life count, and no active round. -/
theorem C9_init_characterization (words phrases : List (List Char)) (lives : Int) :
    ((∀ w ∈ words, trimWs w = []) →
      HangmanEngine.init words phrases lives =
        .error (.valueError "words must not be empty")) ∧
    ((∃ w ∈ words, trimWs w ≠ []) → (∀ p ∈ phrases, trimWs p = []) →
      HangmanEngine.init words phrases lives =
        .error (.valueError "phrases must not be empty")) ∧
    ((∃ w ∈ words, trimWs w ≠ []) → (∃ p ∈ phrases, trimWs p ≠ []) →
      ∃ eng : HangmanEngine,
        HangmanEngine.init words phrases lives = .ok eng ∧
        eng.lexicon =
          (words.filter (fun w => !w.isEmpty && !(trimWs w).isEmpty)).map trimWs ∧
        eng.idioms =
          (phrases.filter (fun p => !p.isEmpty && !(trimWs p).isEmpty)).map trimWs ∧
        eng.life_pool = lives ∧
        eng.game_state = none) := by
  have blank_iff : ∀ l : List (List Char),
      ((l.filter (fun w => !w.isEmpty && !(trimWs w).isEmpty)).map trimWs).isEmpty = true ↔
        ∀ w ∈ l, trimWs w = [] := by
    intro l
    rw [List.isEmpty_iff, List.map_eq_nil_iff, List.filter_eq_nil_iff]
    constructor
    · intro h w hw
      have hthis := h w hw
      by_contra hne
      have hwne : w ≠ [] := by
        intro hwe; exact hne (by simp [hwe, trimWs])
      simp [hwne, hne] at hthis
    · intro h w hw
      simp [h w hw]
  refine ⟨?_, ?_, ?_⟩
  · intro h
    show (if _ = true then _ else _) = _
    rw [if_pos ((blank_iff words).mpr h)]
  · rintro ⟨w, hw, hwne⟩ hp
    show (if _ = true then _ else _) = _
    rw [if_neg, if_pos ((blank_iff phrases).mpr hp)]
    intro hempty
    exact hwne ((blank_iff words).mp hempty w hw)
  · rintro ⟨w, hw, hwne⟩ ⟨p, hp, hpne⟩
    refine ⟨⟨(words.filter (fun w => !w.isEmpty && !(trimWs w).isEmpty)).map trimWs,
            (phrases.filter (fun p => !p.isEmpty && !(trimWs p).isEmpty)).map trimWs,
            lives, none⟩, ?_, rfl, rfl, rfl, rfl⟩
    show (if _ = true then _ else _) = _
    rw [if_neg, if_neg]
    · intro hempty
      exact hpne ((blank_iff phrases).mp hempty p hp)
    · intro hempty
      exact hwne ((blank_iff words).mp hempty w hw)

/-- Claim C9 witness: construction succeeds on two pools each holding a
non-blank entry, and the entries are stored stripped. -/
theorem C9_init_characterization_witness :
    ∃ eng : HangmanEngine,
      HangmanEngine.init [['D','O','G']] [['B',' ','C']] 3 = .ok eng ∧
      eng.lexicon =
        (([['D','O','G']] : List (List Char)).filter
          (fun w => !w.isEmpty && !(trimWs w).isEmpty)).map trimWs ∧
      eng.idioms =
        (([['B',' ','C']] : List (List Char)).filter
          (fun p => !p.isEmpty && !(trimWs p).isEmpty)).map trimWs ∧
      eng.life_pool = 3 ∧
      eng.game_state = none :=
  (C9_init_characterization [['D','O','G']] [['B',' ','C']] 3).2.2
    ⟨['D','O','G'], by decide, by decide⟩ ⟨['B',' ','C'], by decide, by decide⟩

/-- Claim C6 counterexample: the empty answer (reachable when the chosen pool
entry normalizes to nothing) renders a masked string of length 0, not
2 * 0 - 1 = -1, so the stated length formula fails for it. -/
theorem C6_masked_length_fails_on_empty_answer :
    ¬ (((HangmanState.mk [] 6 []).masked.length : Int) =
        2 * ((HangmanState.mk [] 6 []).answer.length : Int) - 1) := by
  decide

/-- Claim C1: on an active round, a guess whose normalization (strip
whitespace, uppercase) is exactly one A-Z letter not yet guessed adds that
letter to the guessed set, decrements lives by exactly one when the letter
does not occur in the answer and leaves lives unchanged when it does, keeps
the answer, and stores and returns the new state. -/
theorem C1_guess_new_letter (e : HangmanEngine) (gs : HangmanState)
    (letter : List Char) (c : Char)
    (hactive : e.game_state = some gs)
    (hnorm : (trimWs letter).map Char.toUpper = [c])
    (halpha : isUpperAlpha c = true)
    (hnew : gs.guessed.contains c = false) :
    ∃ st : HangmanState,
      e.guess letter = .ok (st, { e with game_state := some st }) ∧
      st.guessed = c :: gs.guessed ∧
      st.answer = gs.answer ∧
      (c ∈ gs.answer → st.lives = gs.lives) ∧
      (c ∉ gs.answer → st.lives = gs.lives - 1) := by
  refine ⟨⟨gs.answer, gs.lives - (if gs.answer.contains c then 0 else 1),
          c :: gs.guessed⟩, ?_, rfl, rfl, ?_, ?_⟩
  · simp only [HangmanEngine.guess, hactive, hnorm]
    rw [if_neg (by rw [halpha]; simp), if_neg (by rw [hnew]; simp)]
  · intro hc
    show gs.lives - (if gs.answer.contains c then 0 else 1) = gs.lives
    rw [(contains_iff gs.answer c).mpr hc]
    simp
  · intro hc
    show gs.lives - (if gs.answer.contains c then 0 else 1) = gs.lives - 1
    have hfalse : gs.answer.contains c = false := by
      cases hcc : gs.answer.contains c
      · rfl
      · exact absurd ((contains_iff gs.answer c).mp hcc) hc
    rw [hfalse]
    simp

/-- Claim C1 witness: guessing " a " against answer "AB" reveals A at no life
cost; guessing "z" against the resulting state costs one life. -/
theorem C1_guess_new_letter_witness :
    (∃ st : HangmanState,
      (HangmanEngine.mk [['A','B']] [['X']] 6 (some ⟨['A','B'], 6, []⟩)).guess
          [' ','a',' '] =
        .ok (st, HangmanEngine.mk [['A','B']] [['X']] 6 (some st)) ∧
      st.guessed = ['A'] ∧
      st.answer = ['A','B'] ∧
      ('A' ∈ (['A','B'] : List Char) → st.lives = 6) ∧
      ('A' ∉ (['A','B'] : List Char) → st.lives = 6 - 1)) ∧
    (∃ st : HangmanState,
      (HangmanEngine.mk [['A','B']] [['X']] 6 (some ⟨['A','B'], 6, ['A']⟩)).guess
          ['z'] =
        .ok (st, HangmanEngine.mk [['A','B']] [['X']] 6 (some st)) ∧
      st.guessed = ['Z','A'] ∧
      st.answer = ['A','B'] ∧
      ('Z' ∈ (['A','B'] : List Char) → st.lives = 6) ∧
      ('Z' ∉ (['A','B'] : List Char) → st.lives = 6 - 1)) :=
  ⟨C1_guess_new_letter
      (HangmanEngine.mk [['A','B']] [['X']] 6 (some ⟨['A','B'], 6, []⟩))
      ⟨['A','B'], 6, []⟩ [' ','a',' '] 'A' rfl (by decide) (by decide) (by decide),
   C1_guess_new_letter
      (HangmanEngine.mk [['A','B']] [['X']] 6 (some ⟨['A','B'], 6, ['A']⟩))
      ⟨['A','B'], 6, ['A']⟩ ['z'] 'Z' rfl (by decide) (by decide) (by decide)⟩

/-- Claim C3: on an active round, a guess whose normalized token is not
exactly one A-Z character, or whose normalized letter was already guessed,
returns the current state unchanged with no error, leaving lives and the
guessed set as they were. -/
theorem C3_invalid_or_repeat_guess_noop (e : HangmanEngine) (gs : HangmanState)
    (letter : List Char)
    (hactive : e.game_state = some gs)
    (h : (∀ c : Char, (trimWs letter).map Char.toUpper = [c] → isUpperAlpha c = false) ∨
         (∃ c : Char, (trimWs letter).map Char.toUpper = [c] ∧
            isUpperAlpha c = true ∧ gs.guessed.contains c = true)) :
    e.guess letter = .ok (gs, e) := by
  rcases htok : (trimWs letter).map Char.toUpper with _ | ⟨c, _ | ⟨c2, rest⟩⟩
  · simp only [HangmanEngine.guess, hactive, htok]
  · simp only [HangmanEngine.guess, hactive, htok]
    rcases h with hbad | ⟨c', hc', halpha, hrep⟩
    · rw [if_pos (by rw [hbad c htok]; rfl)]
    · rw [htok] at hc'
      obtain rfl : c = c' := by injection hc'
      rw [if_neg (by rw [halpha]; simp), if_pos hrep]
  · simp only [HangmanEngine.guess, hactive, htok]

/-- Claim C3 witness: on an active round, the malformed guesses "", "1",
"ab" and the repeated guess "a" all return the state unchanged. -/
theorem C3_invalid_or_repeat_guess_noop_witness :
    (HangmanEngine.mk [['A','B']] [['X']] 3 (some ⟨['A','B'], 3, ['A']⟩)).guess [] =
      .ok (⟨['A','B'], 3, ['A']⟩,
           HangmanEngine.mk [['A','B']] [['X']] 3 (some ⟨['A','B'], 3, ['A']⟩)) ∧
    (HangmanEngine.mk [['A','B']] [['X']] 3 (some ⟨['A','B'], 3, ['A']⟩)).guess ['1'] =
      .ok (⟨['A','B'], 3, ['A']⟩,
           HangmanEngine.mk [['A','B']] [['X']] 3 (some ⟨['A','B'], 3, ['A']⟩)) ∧
    (HangmanEngine.mk [['A','B']] [['X']] 3 (some ⟨['A','B'], 3, ['A']⟩)).guess ['a','b'] =
      .ok (⟨['A','B'], 3, ['A']⟩,
           HangmanEngine.mk [['A','B']] [['X']] 3 (some ⟨['A','B'], 3, ['A']⟩)) ∧
    (HangmanEngine.mk [['A','B']] [['X']] 3 (some ⟨['A','B'], 3, ['A']⟩)).guess ['a'] =
      .ok (⟨['A','B'], 3, ['A']⟩,
           HangmanEngine.mk [['A','B']] [['X']] 3 (some ⟨['A','B'], 3, ['A']⟩)) :=
  ⟨C3_invalid_or_repeat_guess_noop _ _ [] rfl
      (Or.inl (fun c hc => by
        have ht : ([] : List Char).map Char.toUpper = [] := by decide
        rw [show trimWs [] = [] from by decide, ht] at hc
        exact absurd hc (by simp))),
   C3_invalid_or_repeat_guess_noop _ _ ['1'] rfl
      (Or.inl (fun c hc => by
        rw [show (trimWs ['1']).map Char.toUpper = ['1'] from by decide] at hc
        injection hc with h1 h2
        rw [← h1]
        decide)),
   C3_invalid_or_repeat_guess_noop _ _ ['a','b'] rfl
      (Or.inl (fun c hc => by
        rw [show (trimWs ['a','b']).map Char.toUpper = ['A','B'] from by decide] at hc
        injection hc with h1 h2
        exact absurd h2 (by simp))),
   C3_invalid_or_repeat_guess_noop _ _ ['a'] rfl
      (Or.inr ⟨'A', by decide, by decide, by decide⟩)⟩

theorem getD_mod_mem {α : Type} (l : List α) (d : α) (n : Nat) (h : l ≠ []) :
    l.getD (n % l.length) d ∈ l := by
  have hlen : n % l.length < l.length := Nat.mod_lt _ (List.length_pos.mpr h)
  rw [List.getD_eq_getElem l d hlen]
  exact List.getElem_mem hlen

theorem mem_of_mem_trimWs {c : Char} {l : List Char} (h : c ∈ trimWs l) : c ∈ l := by
  unfold trimWs at h
  rw [List.mem_reverse] at h
  have h1 := (List.dropWhile_sublist (p := Char.isWhitespace)
      (l := (l.dropWhile Char.isWhitespace).reverse)).mem h
  rw [List.mem_reverse] at h1
  exact (List.dropWhile_sublist (p := Char.isWhitespace) (l := l)).mem h1

theorem normalize_answer_chars (t : List Char) :
    ∀ ch ∈ normalize_answer t, isUpperAlpha ch = true ∨ ch = ' ' := by
  intro ch hch
  have hmem : ch ∈ (t.map Char.toUpper).filter (fun ch => isUpperAlpha ch || ch == ' ') :=
    mem_of_mem_trimWs hch
  have hp := (List.mem_filter.mp hmem).2
  rcases Bool.or_eq_true_iff.mp hp with h | h
  · exact Or.inl h
  · exact Or.inr (by simpa using h)

theorem start_valid (e : HangmanEngine) (difficulty : String) (pick : Nat)
    (hdiff : difficulty = "basic" ∨ difficulty = "intermediate") :
    e.start difficulty pick =
      .ok (⟨normalize_answer
              ((if difficulty = "basic" then e.lexicon else e.idioms).getD
                (pick % (if difficulty = "basic" then e.lexicon else e.idioms).length) []),
            e.life_pool, []⟩,
           { e with game_state := some (HangmanState.mk
              (normalize_answer
                ((if difficulty = "basic" then e.lexicon else e.idioms).getD
                  (pick % (if difficulty = "basic" then e.lexicon else e.idioms).length) []))
              e.life_pool []) }) := by
  unfold HangmanEngine.start
  rw [if_neg (not_not_intro hdiff)]

/-- Claim C5: for a valid difficulty tag, `start` draws from the word pool
("basic") or the phrase pool ("intermediate"), and replaces the round with a
fresh state: configured lives, empty guessed set, and an answer obtained
from the chosen entry by uppercasing, keeping only A-Z and space, and
stripping the ends (interior characters, spaces included, pass through the
filter untouched, so interior space runs are not collapsed); every character
of the stored answer is an uppercase letter or a space. -/
theorem C5_start_draws_and_normalizes (e : HangmanEngine) (difficulty : String) (pick : Nat)
    (hdiff : difficulty = "basic" ∨ difficulty = "intermediate")
    (hlex : e.lexicon ≠ []) (hidi : e.idioms ≠ []) :
    ∃ (chosen : List Char) (st : HangmanState),
      chosen ∈ (if difficulty = "basic" then e.lexicon else e.idioms) ∧
      e.start difficulty pick = .ok (st, { e with game_state := some st }) ∧
      st.lives = e.life_pool ∧
      st.guessed = [] ∧
      st.answer =
        trimWs ((chosen.map Char.toUpper).filter (fun ch => isUpperAlpha ch || ch == ' ')) ∧
      (∀ ch ∈ st.answer, isUpperAlpha ch = true ∨ ch = ' ') := by
  have hpoolne : (if difficulty = "basic" then e.lexicon else e.idioms) ≠ [] := by
    split
    · exact hlex
    · exact hidi
  exact ⟨(if difficulty = "basic" then e.lexicon else e.idioms).getD
            (pick % (if difficulty = "basic" then e.lexicon else e.idioms).length) [],
         ⟨normalize_answer
            ((if difficulty = "basic" then e.lexicon else e.idioms).getD
              (pick % (if difficulty = "basic" then e.lexicon else e.idioms).length) []),
          e.life_pool, []⟩,
         getD_mod_mem _ [] pick hpoolne,
         start_valid e difficulty pick hdiff,
         rfl, rfl, rfl,
         normalize_answer_chars _⟩

/-- Claim C5 witness: starting "basic" on a one-word pool whose entry is
"a  b!" yields lives 3, no guesses, and answer "A  B": uppercased, the "!"
dropped, and the interior double space preserved. -/
theorem C5_start_draws_and_normalizes_witness :
    ∃ (chosen : List Char) (st : HangmanState),
      chosen ∈ (if ("basic" : String) = "basic"
        then [['a',' ',' ','b','!']] else [['X',' ','Y']]) ∧
      (HangmanEngine.mk [['a',' ',' ','b','!']] [['X',' ','Y']] 3 none).start "basic" 0 =
        .ok (st, HangmanEngine.mk [['a',' ',' ','b','!']] [['X',' ','Y']] 3 (some st)) ∧
      st.lives = 3 ∧
      st.guessed = [] ∧
      st.answer =
        trimWs ((chosen.map Char.toUpper).filter (fun ch => isUpperAlpha ch || ch == ' ')) ∧
      (∀ ch ∈ st.answer, isUpperAlpha ch = true ∨ ch = ' ') :=
  C5_start_draws_and_normalizes
    (HangmanEngine.mk [['a',' ',' ','b','!']] [['X',' ','Y']] 3 none)
    "basic" 0 (Or.inl rfl) (by decide) (by decide)

/-- Claim C10: when the pool entry chosen by `start "basic"` has no A-Z
character and no space after uppercasing, the new round's answer is empty,
`is_won` is already true with an empty guessed set, and `masked` is empty:
the round is won immediately without any guess. -/
theorem C10_blank_answer_wins_immediately (e : HangmanEngine) (pick : Nat)
    (hdeg : ∀ ch ∈ e.lexicon.getD (pick % e.lexicon.length) [],
        isUpperAlpha ch.toUpper = false ∧ ch.toUpper ≠ ' ') :
    ∃ st : HangmanState,
      e.start "basic" pick = .ok (st, { e with game_state := some st }) ∧
      st.answer = [] ∧
      st.guessed = [] ∧
      st.lives = e.life_pool ∧
      st.is_won = true ∧
      st.masked = [] := by
  have hpool : (if ("basic" : String) = "basic" then e.lexicon else e.idioms) = e.lexicon :=
    if_pos rfl
  have hanswer :
      normalize_answer (e.lexicon.getD (pick % e.lexicon.length) []) = [] := by
    unfold normalize_answer
    have hfil : ((e.lexicon.getD (pick % e.lexicon.length) []).map Char.toUpper).filter
        (fun ch => isUpperAlpha ch || ch == ' ') = [] := by
      rw [List.filter_eq_nil_iff]
      intro a ha
      rcases List.mem_map.mp ha with ⟨ch, hch, rfl⟩
      rcases hdeg ch hch with ⟨h1, h2⟩
      simp [h1, h2]
    rw [hfil]
    rfl
  refine ⟨⟨[], e.life_pool, []⟩, ?_, rfl, rfl, rfl, rfl, rfl⟩
  rw [start_valid e "basic" pick (Or.inl rfl)]
  rw [hpool, hanswer]

/-- Claim C10 witness: a pool whose only word is "123" starts a round that is
immediately won, with empty answer and empty mask. -/
theorem C10_blank_answer_wins_immediately_witness :
    ∃ st : HangmanState,
      (HangmanEngine.mk [['1','2','3']] [['X',' ','Y']] 6 none).start "basic" 0 =
        .ok (st, HangmanEngine.mk [['1','2','3']] [['X',' ','Y']] 6 (some st)) ∧
      st.answer = [] ∧
      st.guessed = [] ∧
      st.lives = 6 ∧
      st.is_won = true ∧
      st.masked = [] :=
  C10_blank_answer_wins_immediately
    (HangmanEngine.mk [['1','2','3']] [['X',' ','Y']] 6 none) 0 (by decide)

theorem intersperse_length {α : Type} (sep : α) :
    ∀ l : List α, (List.intersperse sep l).length = 2 * l.length - 1
  | [] => rfl
  | [_] => rfl
  | x :: y :: t => by
    rw [List.intersperse_cons_cons]
    have ih := intersperse_length sep (y :: t)
    simp only [List.length_cons] at ih ⊢
    omega

theorem intersperse_getD_even {α : Type} (sep d : α) :
    ∀ (l : List α) (i : Nat), i < l.length →
      (List.intersperse sep l).getD (2 * i) d = l.getD i d
  | [], i, h => by simp at h
  | [x], i, h => by
    have h0 : i = 0 := by simp only [List.length_singleton] at h; omega
    subst h0
    rw [List.intersperse_singleton]
  | x :: y :: t, 0, h => by
    rw [List.intersperse_cons_cons]
    rfl
  | x :: y :: t, i + 1, h => by
    rw [List.intersperse_cons_cons]
    have h' : i < (y :: t).length := by
      simp only [List.length_cons] at h ⊢
      omega
    have ih := intersperse_getD_even sep d (y :: t) i h'
    have h2 : 2 * (i + 1) = 2 * i + 1 + 1 := by omega
    rw [h2]
    simp only [List.getD_cons_succ]
    exact ih

theorem intersperse_getD_odd {α : Type} (sep d : α) :
    ∀ (l : List α) (i : Nat), i + 1 < l.length →
      (List.intersperse sep l).getD (2 * i + 1) d = sep
  | [], i, h => by simp at h
  | [x], i, h => by simp only [List.length_singleton] at h; omega
  | x :: y :: t, 0, h => by
    rw [List.intersperse_cons_cons]
    rfl
  | x :: y :: t, i + 1, h => by
    rw [List.intersperse_cons_cons]
    have h' : i + 1 < (y :: t).length := by
      simp only [List.length_cons] at h ⊢
      omega
    have ih := intersperse_getD_odd sep d (y :: t) i h'
    have h2 : 2 * (i + 1) + 1 = 2 * i + 1 + 1 + 1 := by omega
    rw [h2]
    simp only [List.getD_cons_succ]
    exact ih

theorem mask_token_eq (g : List Char) (ch : Char) :
    (if ch == ' ' || g.contains ch then ch else MASK_CHAR) =
    (if ch = ' ' ∨ ch ∈ g then ch else MASK_CHAR) := by
  by_cases h : ch = ' ' ∨ ch ∈ g
  · have hb : (ch == ' ' || g.contains ch) = true := by
      rcases h with h1 | h1
      · simp [h1]
      · simp [h1, contains_iff]
    rw [if_pos hb, if_pos h]
  · have hb : ¬ ((ch == ' ' || g.contains ch) = true) := by
      intro hcontra
      rcases Bool.or_eq_true_iff.mp hcontra with hb | hb
      · exact h (Or.inl (by simpa using hb))
      · exact h (Or.inr ((contains_iff g ch).mp hb))
    rw [if_neg hb, if_neg h]

/-- Claim C6 (amended): `masked` emits one token per answer character (the
character itself for a space or a guessed letter, the mask character
otherwise) joined by a single separating space, so even rendered positions
hold the tokens and odd rendered positions hold separators; the rendered
length is 2 * length(answer) - 1 for every non-empty answer (the empty
answer renders as the empty string). -/
theorem C6_masked_rendering (s : HangmanState) (hne : s.answer ≠ []) :
    ((s.masked.length : Int) = 2 * (s.answer.length : Int) - 1) ∧
    (∀ i : Nat, i < s.answer.length →
      s.masked.getD (2 * i) '?' =
        (if s.answer.getD i '?' = ' ' ∨ s.answer.getD i '?' ∈ s.guessed
         then s.answer.getD i '?' else MASK_CHAR)) ∧
    (∀ i : Nat, i + 1 < s.answer.length → s.masked.getD (2 * i + 1) '?' = ' ') := by
  refine ⟨?_, ?_, ?_⟩
  · have hlen := intersperse_length ' '
      (s.answer.map (fun ch => if ch == ' ' || s.guessed.contains ch then ch else MASK_CHAR))
    unfold HangmanState.masked
    rw [hlen, List.length_map]
    have hpos : 0 < s.answer.length := List.length_pos.mpr hne
    omega
  · intro i hi
    unfold HangmanState.masked
    have hmaplen : i < (s.answer.map
        (fun ch => if ch == ' ' || s.guessed.contains ch then ch else MASK_CHAR)).length := by
      rw [List.length_map]; exact hi
    rw [intersperse_getD_even ' ' '?' _ i hmaplen]
    rw [List.getD_eq_getElem _ _ hmaplen, List.getElem_map]
    rw [List.getD_eq_getElem _ _ hi]
    exact mask_token_eq s.guessed _
  · intro i hi
    unfold HangmanState.masked
    have hmaplen : i + 1 < (s.answer.map
        (fun ch => if ch == ' ' || s.guessed.contains ch then ch else MASK_CHAR)).length := by
      rw [List.length_map]; exact hi
    exact intersperse_getD_odd ' ' '?' _ i hmaplen

/-- Claim C6 witness: for the answer "A B" with A guessed, the rendering has
length 5 = 2*3-1, tokens A, space, mask at even positions, separators at odd
positions. -/
theorem C6_masked_rendering_witness :
    (((HangmanState.mk ['A',' ','B'] 3 ['A']).masked.length : Int) =
        2 * (((HangmanState.mk ['A',' ','B'] 3 ['A']).answer.length : Int)) - 1) ∧
    (∀ i : Nat, i < (HangmanState.mk ['A',' ','B'] 3 ['A']).answer.length →
      (HangmanState.mk ['A',' ','B'] 3 ['A']).masked.getD (2 * i) '?' =
        (if (HangmanState.mk ['A',' ','B'] 3 ['A']).answer.getD i '?' = ' ' ∨
            (HangmanState.mk ['A',' ','B'] 3 ['A']).answer.getD i '?' ∈
              (HangmanState.mk ['A',' ','B'] 3 ['A']).guessed
         then (HangmanState.mk ['A',' ','B'] 3 ['A']).answer.getD i '?' else MASK_CHAR)) ∧
    (∀ i : Nat, i + 1 < (HangmanState.mk ['A',' ','B'] 3 ['A']).answer.length →
      (HangmanState.mk ['A',' ','B'] 3 ['A']).masked.getD (2 * i + 1) '?' = ' ') :=
  C6_masked_rendering (HangmanState.mk ['A',' ','B'] 3 ['A']) (by decide)

theorem applyAction_invariant (e : HangmanEngine) (a : HAction) (gs : HangmanState)
    (h : e.game_state = some gs) :
    ∃ gs' : HangmanState,
      (e.applyAction a).game_state = some gs' ∧
      gs'.answer = gs.answer ∧
      gs'.lives ≤ gs.lives ∧
      (∀ c ∈ gs.guessed, c ∈ gs'.guessed) ∧
      (∀ c ∈ gs'.guessed, c ∈ gs.guessed ∨ isUpperAlpha c = true) := by
  cases a with
  | atimeout =>
    refine ⟨⟨gs.answer, gs.lives - 1, gs.guessed⟩, ?_, rfl,
            by show gs.lives - 1 ≤ gs.lives; omega,
            fun c hc => hc, fun c hc => Or.inl hc⟩
    simp only [HangmanEngine.applyAction, HangmanEngine.timeout, h]
  | aguess l =>
    rcases htok : (trimWs l).map Char.toUpper with _ | ⟨c, _ | ⟨c2, rest⟩⟩
    · refine ⟨gs, ?_, rfl, le_refl _, fun c hc => hc, fun c hc => Or.inl hc⟩
      simp only [HangmanEngine.applyAction, HangmanEngine.guess, h, htok]
    · by_cases halpha : isUpperAlpha c = true
      · by_cases hmem : gs.guessed.contains c = true
        · refine ⟨gs, ?_, rfl, le_refl _, fun c hc => hc, fun c hc => Or.inl hc⟩
          simp only [HangmanEngine.applyAction, HangmanEngine.guess, h, htok]
          rw [if_neg (by rw [halpha]; simp), if_pos hmem]
          exact h
        · refine ⟨⟨gs.answer, gs.lives - (if gs.answer.contains c then 0 else 1),
                  c :: gs.guessed⟩, ?_, rfl, ?_,
                  fun x hx => List.mem_cons_of_mem c hx, ?_⟩
          · simp only [HangmanEngine.applyAction, HangmanEngine.guess, h, htok]
            rw [if_neg (by rw [halpha]; simp),
                if_neg (by rw [Bool.eq_false_iff.mpr hmem]; simp)]
          · show gs.lives - (if gs.answer.contains c then 0 else 1) ≤ gs.lives
            split <;> omega
          · intro x hx
            rcases List.mem_cons.mp hx with hx | hx
            · exact Or.inr (hx ▸ halpha)
            · exact Or.inl hx
      · refine ⟨gs, ?_, rfl, le_refl _, fun c hc => hc, fun c hc => Or.inl hc⟩
        simp only [HangmanEngine.applyAction, HangmanEngine.guess, h, htok]
        rw [if_pos (by rw [Bool.eq_false_iff.mpr halpha]; rfl)]
        exact h
    · refine ⟨gs, ?_, rfl, le_refl _, fun c hc => hc, fun c hc => Or.inl hc⟩
      simp only [HangmanEngine.applyAction, HangmanEngine.guess, h, htok]

/-- Claim C7: across every sequence of `guess` and `timeout` calls within a
round whose guessed set holds only uppercase letters (as every freshly
started round does), the answer never changes, lives never increase, the
guessed set only grows, and it keeps holding only the 26 uppercase letters,
never the space character. -/
theorem C7_round_invariants (acts : List HAction) (e : HangmanEngine) (gs : HangmanState)
    (hactive : e.game_state = some gs)
    (hg : ∀ c ∈ gs.guessed, isUpperAlpha c = true) :
    ∃ gs' : HangmanState,
      (e.run acts).game_state = some gs' ∧
      gs'.answer = gs.answer ∧
      gs'.lives ≤ gs.lives ∧
      (∀ c ∈ gs.guessed, c ∈ gs'.guessed) ∧
      (∀ c ∈ gs'.guessed, isUpperAlpha c = true) ∧
      (∀ c ∈ gs'.guessed, c ≠ ' ') := by
  induction acts generalizing e gs with
  | nil =>
    refine ⟨gs, hactive, rfl, le_refl _, fun c hc => hc, hg, ?_⟩
    intro c hc hsp
    subst hsp
    exact absurd (hg _ hc) (by decide)
  | cons a rest ih =>
    obtain ⟨gs1, h1, hans, hlives, hsub, hnewchar⟩ := applyAction_invariant e a gs hactive
    have hg1 : ∀ c ∈ gs1.guessed, isUpperAlpha c = true := fun c hc =>
      (hnewchar c hc).elim (fun hmemold => hg c hmemold) id
    obtain ⟨gs', h', hans', hlives', hsub', hup', hsp'⟩ := ih (e.applyAction a) gs1 h1 hg1
    exact ⟨gs', h', by rw [hans', hans], le_trans hlives' hlives,
           fun c hc => hsub' c (hsub c hc), hup', hsp'⟩

/-- Claim C7 witness: from a fresh round on answer "AB" with 3 lives, the
sequence guess "a", guess "z", timeout, guess "z" preserves the answer, never
increases lives, only grows the guessed set, and keeps it within A-Z. -/
theorem C7_round_invariants_witness :
    ∃ gs' : HangmanState,
      ((HangmanEngine.mk [['A','B']] [['X']] 3 (some ⟨['A','B'], 3, []⟩)).run
          [.aguess ['a'], .aguess ['z'], .atimeout, .aguess ['z']]).game_state = some gs' ∧
      gs'.answer = (HangmanState.mk ['A','B'] 3 []).answer ∧
      gs'.lives ≤ (HangmanState.mk ['A','B'] 3 []).lives ∧
      (∀ c ∈ (HangmanState.mk ['A','B'] 3 []).guessed, c ∈ gs'.guessed) ∧
      (∀ c ∈ gs'.guessed, isUpperAlpha c = true) ∧
      (∀ c ∈ gs'.guessed, c ≠ ' ') :=
  C7_round_invariants [.aguess ['a'], .aguess ['z'], .atimeout, .aguess ['z']]
    (HangmanEngine.mk [['A','B']] [['X']] 3 (some ⟨['A','B'], 3, []⟩))
    ⟨['A','B'], 3, []⟩ rfl (by simp)

end Hangman
